import Mathlib

/-!
Verification development for `swift/megatron/train/trainers/trainer.py`
(class `MegatronTrainer`): a shallow embedding of the cyclic epoch
iterator, the train-step interceptor, the startup iteration-budget
derivation, and the distributed evaluation loop with consensus early
exit.  Python ints are modelled as `Nat`/`Int`, Python floats as `ℚ`,
Python exceptions as `Except`, dictionaries as insertion-ordered
association lists, and the generator/`while` constructs as fuel-indexed
structural recursion.
-/

namespace MegatronTrainer

/-- Embedding of `MegatronTrainer.new_cyclic_iter` (trainer.py lines
61-74).  `max_epochs = 0` models a falsy `args.max_epochs` (`None` or
`0`); `is_training i` is the value of the `getattr` read of the
`is_training` flag at the top of the `while` body when the epoch counter
equals `i`; `src` is the (re-iterable) underlying data source.  The
generator is run for at most `fuel` iterations of the `while` loop
starting from epoch counter `i`; the result is `(yielded items, final
epoch counter, terminated)`, where `terminated = true` means the
generator reached its `break` rather than running out of fuel. -/
def new_cyclic_iter {α : Type} (max_epochs : Nat) (is_training : Nat → Bool)
    (src : List α) : Nat → Nat → List α × Nat × Bool
  | 0, i => ([], i, false)
  | fuel + 1, i =>
    if is_training i = true ∧ max_epochs ≠ 0 ∧ max_epochs ≤ i then
      ([], i, true)
    else
      let r := new_cyclic_iter max_epochs is_training src fuel (i + 1)
      (src ++ r.1, r.2)

/-- Python exceptions relevant to `train_step`: the designated
data-exhaustion signal `StopIteration` versus any other exception. -/
inductive PyErr where
  | stopIteration
  | other (msg : String)
deriving DecidableEq

/-- The `args.is_training` flag manipulated by
`MegatronTrainer._training_context` (trainer.py lines 76-84). -/
structure TrainFlags where
  is_training : Bool
deriving DecidableEq

/-- Result tuple of a Megatron train step, as returned at trainer.py
line 96: `({}, True, True, True, 0, None, None)` maps to loss dict,
skipped flag, should-checkpoint flag, should-exit flag, grad norm and
two empty trailing payload slots. -/
structure StepResult where
  loss_dict : List (String × ℚ)
  skipped : Bool
  should_checkpoint : Bool
  should_exit : Bool
  grad_norm : ℚ
  num_zeros_in_grad : Option ℚ
  extra : Option ℚ
deriving DecidableEq

/-- Embedding of `MegatronTrainer._training_context` (lines 76-84): set
`args.is_training := true`, run the body, and on every exit path
(normal return or propagated exception) reset `args.is_training :=
false` (the `finally` block). -/
def training_context {β : Type} (body : TrainFlags → Except PyErr β × TrainFlags)
    (args : TrainFlags) : Except PyErr β × TrainFlags :=
  let r := body { args with is_training := true }
  (r.1, { r.2 with is_training := false })

/-- The canonical skip result returned on `StopIteration` (line 96). -/
def skip_result : StepResult :=
  { loss_dict := [], skipped := true, should_checkpoint := true,
    should_exit := true, grad_norm := 0, num_zeros_in_grad := none, extra := none }

/-- Embedding of `MegatronTrainer.train_step` (lines 89-96).
`origin_train_step` models `self._origin_train_step` applied to the
fixed step arguments: a state transformer on the flag state that may
raise.  `_replace_data_iterator` (lines 86-87) is the identity and is
elided. -/
def train_step (origin_train_step : TrainFlags → Except PyErr StepResult × TrainFlags)
    (args : TrainFlags) : Except PyErr StepResult × TrainFlags :=
  training_context (fun a =>
    match origin_train_step a with
    | (Except.error PyErr.stopIteration, a2) => (Except.ok skip_result, a2)
    | r => r) args

/-- A Python dataset at the interface used by `_get_iters`: `len = none`
models the absence of a `__len__` method (a streaming dataset). -/
structure PyDataset where
  len : Option Nat
deriving DecidableEq

/-- The Megatron argument fields read and written by the patched
`initialize_megatron` inside `MegatronTrainer._get_iters` (lines
30-59).  `train_iters = none` models `args.train_iters is None`; a
negative `eval_iters` models the unsupplied sentinel tested by
`args.eval_iters < 0`. -/
structure MArgs where
  micro_batch_size : Nat
  global_batch_size : Nat
  max_epochs : Nat
  train_iters : Option Nat
  eval_iters : Int
deriving DecidableEq

/-- The `args.train_iters is None` block of `_get_iters` (lines 39-45):
derive `train_iters` from the dataset length when available, otherwise
raise `ValueError` (modelled as `Except.error`). -/
def resolve_train_iters (args : MArgs) (step_batch_size : Nat)
    (train_dataset : PyDataset) : Except String MArgs :=
  match args.train_iters with
  | some _ => Except.ok args
  | none =>
    match train_dataset.len with
    | some n =>
      Except.ok { args with
        train_iters := some (n / step_batch_size * step_batch_size * args.max_epochs / args.global_batch_size + 1) }
    | none =>
      Except.error "You are using a streaming training dataset. Please explicitly specify --train_iters."

/-- The `val_dataset is not None and args.eval_iters < 0` block of
`_get_iters` (lines 46-52): derive `eval_iters` from the validation
dataset length when available, otherwise raise `ValueError`. -/
def resolve_eval_iters (args : MArgs) (step_batch_size : Nat)
    (val_dataset : Option PyDataset) : Except String MArgs :=
  match val_dataset with
  | none => Except.ok args
  | some v =>
    if args.eval_iters < 0 then
      match v.len with
      | some n =>
        Except.ok { args with
          eval_iters := ((max (n / step_batch_size * step_batch_size / args.global_batch_size) 1 : Nat) : Int) }
      | none =>
        Except.error "You are using a streaming validation dataset. Please explicitly specify --eval_iters."
    else Except.ok args

/-- Embedding of the patched `initialize_megatron` body inside
`MegatronTrainer._get_iters` (lines 34-53): compute `step_batch_size =
micro_batch_size * data_parallel_size`, then resolve `train_iters`
followed by `eval_iters`, short-circuiting on the first error. -/
def get_iters (args : MArgs) (data_parallel_size : Nat) (train_dataset : PyDataset)
    (val_dataset : Option PyDataset) : Except String MArgs :=
  let step_batch_size := args.micro_batch_size * data_parallel_size
  match resolve_train_iters args step_batch_size train_dataset with
  | Except.error e => Except.error e
  | Except.ok args1 => resolve_eval_iters args1 step_batch_size val_dataset

/-- Embedding of `MegatronTrainer.train` (lines 249-261) at the level
relevant to startup: under the `_get_iters` patch the iteration budget
is resolved during initialization, before any train step or evaluation
collective; `run_pretrain` models the remainder of `pretrain` (the
whole training run), which only executes when resolution succeeded. -/
def train {T : Type} (run_pretrain : MArgs → T) (args : MArgs) (data_parallel_size : Nat)
    (train_dataset : PyDataset) (val_dataset : Option PyDataset) : Except String T :=
  (get_iters args data_parallel_size train_dataset val_dataset).map run_pretrain

/-- Per-microbatch loss report for one key: the engine returns either a
scalar or a `(value, weight)` tuple/list, distinguished at trainer.py
line 168 by `isinstance(val, tuple) or isinstance(val, list)`. -/
inductive LossVal where
  | scalar (v : ℚ)
  | pair (v w : ℚ)
deriving DecidableEq

/-- Contribution of one reported value to the `(numerator, denominator)`
accumulator entry: a pair contributes `(v, w)` (lines 169-170), a
scalar contributes `(v, 1)` (lines 172-173). -/
def contribOf : LossVal → ℚ × ℚ
  | LossVal.scalar v => (v, 1)
  | LossVal.pair v w => (v, w)

/-- Componentwise sum of `(numerator, denominator)` pairs. -/
def addPair (p q : ℚ × ℚ) : ℚ × ℚ := (p.1 + q.1, p.2 + q.2)

/-- The accumulator `total_loss_dict`: an insertion-ordered association
list from metric key to a `(numerator, denominator)` pair, modelling
the Python dict of two-element tensors. -/
abbrev Acc := List (String × (ℚ × ℚ))

/-- One `total_loss_dict` update for key `key` with reported value `v`
(lines 164-173): the entry is initialised to `(0, 0)` if absent, then
the contribution is added in place. -/
def accAdd (a : Acc) (key : String) (v : LossVal) : Acc :=
  match a with
  | [] => [(key, addPair (0, 0) (contribOf v))]
  | (k, p) :: rest =>
    if k == key then (k, addPair p (contribOf v)) :: rest
    else (k, p) :: accAdd rest key v

/-- Accumulate one per-microbatch `loss_dict` (the `for key in
loss_dict` loop, lines 164-173). -/
def accLossDict (a : Acc) (d : List (String × LossVal)) : Acc :=
  d.foldl (fun acc kv => accAdd acc kv.1 kv.2) a

/-- Accumulate the list of per-microbatch loss dicts returned by one
`forward_backward_func` call (the `for loss_dict in loss_dicts` loop,
line 163). -/
def accLossDicts (a : Acc) (ds : List (List (String × LossVal))) : Acc :=
  ds.foldl accLossDict a

/-- Finalisation of the accumulator (lines 206-208): each entry becomes
`numerator / denominator`. -/
def finalizeAcc (a : Acc) : List (String × ℚ) :=
  a.map (fun kv => (kv.1, kv.2.1 / kv.2.2))

/-- Current `(numerator, denominator)` entry for key `k`, defaulting to
`(0, 0)` when the key is absent. -/
def get0 (a : Acc) (k : String) : ℚ × ℚ := (List.lookup k a).getD (0, 0)

/-- Componentwise sum of a list of contributions. -/
def sumPairs (l : List (ℚ × ℚ)) : ℚ × ℚ := ((l.map Prod.fst).sum, (l.map Prod.snd).sum)

/-- Contributions of key `k` in one per-microbatch loss dict, in report
order. -/
def dictContribs (d : List (String × LossVal)) (k : String) : List (ℚ × ℚ) :=
  d.filterMap (fun kv => if kv.1 == k then some (contribOf kv.2) else none)

/-- Contributions of key `k` in the engine output of one iteration. -/
def dictsContribs (ds : List (List (String × LossVal))) (k : String) : List (ℚ × ℚ) :=
  (ds.map (fun d => dictContribs d k)).flatten

/-- Train/eval mode of one model module, toggled by `model_module.eval()`
(line 118) and `model_module.train()` (line 204). -/
inductive ModuleMode where
  | train
  | eval
deriving DecidableEq

/-- Megatron `RerunMode` (from the external `rerun_state_machine`
module); only `DISABLED` is distinguished by the code under study. -/
inductive RerunMode where
  | DISABLED
  | VALIDATE_RESULTS
  | REPORT_DETERMINISM_STATS
deriving DecidableEq

/-- The argument fields of `get_args()` read by `evaluate`. A zero
`exit_duration_in_mins` models a falsy setting (no wall-clock budget,
line 177). -/
structure EvalArgs where
  eval_iters : Nat
  global_batch_size : Nat
  micro_batch_size : Nat
  data_parallel_size : Nat
  exit_duration_in_mins : Nat
deriving DecidableEq

/-- External collaborators of `evaluate` for a fleet of `n` workers.
`loss_dicts j w` is the engine output of (1-based) iteration `j` on
worker `w` (line 145); `train_time j w` is the elapsed-minutes value
`(time.time() - training._TRAIN_START_TIME) / 60.0` observed by worker
`w` at the time check of iteration `j` (line 178); the remaining fields
model `mpu.is_pipeline_last_stage`, `is_last_rank`,
`non_loss_data_func` and `process_non_loss_data_func` (an `Option`
field is `some a` when the callback is supplied and would produce
`a`). -/
structure EvalEnv (n : Nat) (α : Type) where
  loss_dicts : Nat → Fin n → List (List (String × LossVal))
  train_time : Nat → Fin n → ℚ
  is_pipeline_last_stage : Fin n → Bool
  is_last_rank : Bool
  non_loss_data_func : Option α
  process_non_loss_data_func : Option α

/-- Worker-local mutable state touched by `evaluate`: the mode of every
model module, the rerun-state-machine mode, and
`args.consumed_valid_samples`. -/
structure EvalState where
  modelModes : List ModuleMode
  rerunMode : RerunMode
  consumed_valid_samples : Nat
deriving DecidableEq

/-- Observable outcome of `evaluate` on one worker: the returned triple
`(total_loss_dict, collected_non_loss_data, timelimit-hit)` plus the
final worker state, the final value of the `iteration` variable, and
the value of the local `total_loss_dict` accumulator at the executed
`return` statement (the early-exit path at line 185 discards that
accumulator; it is recorded here to make the discard observable). -/
structure EvalReturn (α : Type) where
  metrics : Option (List (String × ℚ))
  collected_non_loss_data : Option α
  aborted : Bool
  state : EvalState
  iteration : Nat
  total_loss_dict_at_return : Acc
deriving DecidableEq

/-- The `all_reduce` with `ReduceOp.MAX` over one integer per worker
(line 180). -/
def allReduceMax {n : Nat} (f : Fin n → Nat) : Nat :=
  (Finset.univ : Finset (Fin n)).sup f

/-- The reduced early-exit flag `done` of iteration `j` (lines 178-181):
each worker contributes `int(train_time > args.exit_duration_in_mins)`,
the fleet reduces with MAX, and every worker reads back the same
truthiness. -/
def evalDone {n : Nat} {α : Type} (args : EvalArgs) (env : EvalEnv n α) (j : Nat) : Bool :=
  allReduceMax (fun w2 => if (args.exit_duration_in_mins : ℚ) < env.train_time j w2 then 1 else 0) != 0

/-- Auxiliary non-loss data collection after the loop (lines 187-200):
`non_loss_data_func` takes precedence; otherwise the
`process_non_loss_data_func` pass runs on the last rank only. -/
def collectNonLossData {n : Nat} {α : Type} (env : EvalEnv n α) : Option α :=
  match env.non_loss_data_func with
  | some a => some a
  | none =>
    match env.process_non_loss_data_func with
    | some a => if env.is_last_rank then some a else none
    | none => none

/-- The `while iteration < args.eval_iters` loop of `evaluate` (lines
135-217) on worker `w`, with `remaining = args.eval_iters - iteration`
as structural fuel and `rerun_mode` the mode saved at entry (line 122).
Each executed iteration accumulates the loss dicts of the engine on the
pipeline-final stage and advances `consumed_valid_samples` (lines
161-175) before the time-limit consensus check (lines 177-185); the
two nested `if` statements of the source are one conjunction here because both fall
through to the same continuation.  The early-exit return restores only
the rerun mode (lines 183-185); normal completion restores the model
modules to train mode, finalises the accumulator and restores the
rerun mode (lines 202-217). -/
def evalLoop {n : Nat} {α : Type} (args : EvalArgs) (env : EvalEnv n α) (w : Fin n)
    (rerun_mode : RerunMode) : Nat → Nat → Acc → EvalState → EvalReturn α
  | 0, iteration, total, st =>
    { metrics := some (finalizeAcc total)
      collected_non_loss_data := collectNonLossData env
      aborted := false
      state := { st with
        modelModes := st.modelModes.map (fun _ => ModuleMode.train)
        rerunMode := rerun_mode }
      iteration := iteration
      total_loss_dict_at_return := total }
  | remaining + 1, iteration, total, st =>
    let total2 :=
      if env.is_pipeline_last_stage w then accLossDicts total (env.loss_dicts (iteration + 1) w)
      else total
    let st2 := { st with consumed_valid_samples := st.consumed_valid_samples + args.global_batch_size }
    if args.exit_duration_in_mins ≠ 0 ∧ evalDone args env (iteration + 1) = true then
      { metrics := none
        collected_non_loss_data := none
        aborted := true
        state := { st2 with rerunMode := rerun_mode }
        iteration := iteration + 1
        total_loss_dict_at_return := total2 }
    else
      evalLoop args env w rerun_mode remaining (iteration + 1) total2 st2

/-- Embedding of `MegatronTrainer.evaluate` (lines 98-217) on worker `w`
of a fleet of `n`: switch every model module to eval mode (lines
117-118), save the rerun mode and disable the rerun state machine
(lines 121-123), then run the bounded loop starting from `iteration =
0` with an empty `total_loss_dict` (lines 125, 132). -/
def evaluate {n : Nat} {α : Type} (args : EvalArgs) (env : EvalEnv n α) (w : Fin n)
    (st : EvalState) : EvalReturn α :=
  evalLoop args env w st.rerunMode args.eval_iters 0 []
    { st with
      modelModes := st.modelModes.map (fun _ => ModuleMode.eval)
      rerunMode := RerunMode.DISABLED }

/-- Offset (1-based) of the first loop iteration, among the next `r`
iterations after `iteration`, whose reduced time-limit flag fires;
`none` when no early exit occurs within those iterations. -/
def firstDoneOff {n : Nat} {α : Type} (args : EvalArgs) (env : EvalEnv n α)
    (iteration : Nat) : Nat → Option Nat
  | 0 => none
  | r + 1 =>
    if args.exit_duration_in_mins ≠ 0 ∧ evalDone args env (iteration + 1) = true then some 1
    else (firstDoneOff args env (iteration + 1) r).map (fun t => t + 1)

/-- Accumulator contents after running the accumulation step of
iterations `start+1 .. start+cnt` (lines 161-173) on worker `w`,
starting from `total`. -/
def accRange {n : Nat} {α : Type} (env : EvalEnv n α) (w : Fin n) (total : Acc)
    (start : Nat) : Nat → Acc
  | 0 => total
  | cnt + 1 =>
    accRange env w
      (if env.is_pipeline_last_stage w then accLossDicts total (env.loss_dicts (start + 1) w)
       else total)
      (start + 1) cnt

/-- Contributions of key `k` over iterations `start+1 .. start+cnt` on
worker `w`, in accumulation order. -/
def iterContribs {n : Nat} {α : Type} (env : EvalEnv n α) (w : Fin n)
    (start : Nat) : Nat → String → List (ℚ × ℚ)
  | 0, _ => []
  | cnt + 1, k =>
    dictsContribs (env.loss_dicts (start + 1) w) k ++ iterContribs env w (start + 1) cnt k

/-- Concrete one-worker fleet whose single worker is always past the
wall-clock budget; the engine reports no losses. -/
def sampleEnvAbort : EvalEnv 1 Nat :=
  ⟨fun _ _ => [], fun _ _ => 5, fun _ => true, true, none, none⟩

/-- Concrete one-worker fleet past the wall-clock budget whose engine
reports the scalar metric `loss = 5` every iteration. -/
def sampleEnvLoss : EvalEnv 1 Nat :=
  ⟨fun _ _ => [[("loss", LossVal.scalar 5)]], fun _ _ => 5, fun _ => true, true, none, none⟩

/-- Concrete one-worker fleet inside the wall-clock budget whose engine
reports a weighted metric `lm = (3, 2)` and a scalar metric `acc = 1`. -/
def sampleEnvMetrics : EvalEnv 1 Nat :=
  ⟨fun _ _ => [[("lm", LossVal.pair 3 2), ("acc", LossVal.scalar 1)]], fun _ _ => 0,
    fun _ => true, true, none, none⟩

/-- Concrete two-worker fleet in which nobody is past the budget at
iteration 1 and only worker 0 is past the budget from iteration 2 on. -/
def sampleEnvFleet : EvalEnv 2 Nat :=
  ⟨fun _ _ => [], fun t w2 => if t = 1 then 0 else if w2.val = 0 then 5 else 0,
    fun _ => true, true, none, none⟩

/-- Concrete entry state for `evaluate`: one model module in train mode
and the rerun state machine in `VALIDATE_RESULTS` mode. -/
def sampleState : EvalState := ⟨[ModuleMode.train], RerunMode.VALIDATE_RESULTS, 0⟩

theorem new_cyclic_iter_max_epochs {α : Type} (N : Nat) (src : List α) (hN : 0 < N) :
    ∀ (fuel i : Nat), i ≤ N → N + 1 - i ≤ fuel →
      new_cyclic_iter N (fun _ => true) src fuel i =
        ((List.replicate (N - i) src).flatten, N, true) := by
  intro fuel
  induction fuel with
  | zero => intro i hi hf; omega
  | succ fuel ih =>
    intro i hi hf
    rcases Nat.lt_or_ge i N with hlt | hge
    · have hcond : ¬((fun _ : Nat => true) i = true ∧ N ≠ 0 ∧ N ≤ i) := by
        simp only [not_and]
        intro _ _
        omega
      rw [new_cyclic_iter, if_neg hcond]
      have hrec := ih (i + 1) (by omega) (by omega)
      simp only [hrec]
      have hNi : N - i = (N - (i + 1)) + 1 := by omega
      rw [hNi, List.replicate_succ, List.flatten_cons]
    · have hiN : i = N := by omega
      subst hiN
      rw [new_cyclic_iter, if_pos ⟨rfl, by omega, by omega⟩]
      simp [Nat.sub_self]

/-- C3: for every `maxEpochs = N > 0` and every finite re-iterable data
source of length `L`, with `is_training` true for the whole run, the
cyclic iterator yields exactly `N` full passes over the source (`N * L`
items) and then terminates, with the epoch counter equal to `N` at
termination. -/
theorem c3_cyclic_iter_epoch_bound {α : Type} (N L fuel : Nat) (src : List α)
    (hN : 0 < N) (hL : src.length = L) (hfuel : N + 1 ≤ fuel) :
    new_cyclic_iter N (fun _ => true) src fuel 0 =
      ((List.replicate N src).flatten, N, true) ∧
    ((List.replicate N src).flatten).length = N * L := by
  constructor
  · have h := new_cyclic_iter_max_epochs N src hN fuel 0 (by omega) (by omega)
    simpa using h
  · simp [List.length_flatten, List.map_replicate, List.sum_replicate, smul_eq_mul, hL]

/-- Witness for C3 at `N = 2`, `src = [10, 20]`, `fuel = 3`. -/
theorem c3_witness :
    (0 < 2 ∧ ([10, 20] : List Nat).length = 2 ∧ 2 + 1 ≤ 3) ∧
    (new_cyclic_iter 2 (fun _ => true) ([10, 20] : List Nat) 3 0 =
        ((List.replicate 2 ([10, 20] : List Nat)).flatten, 2, true) ∧
      ((List.replicate 2 ([10, 20] : List Nat)).flatten).length = 2 * 2) :=
  ⟨by decide, c3_cyclic_iter_epoch_bound 2 2 3 [10, 20] (by decide) (by decide) (by decide)⟩

/-- C7 counterexample: one full pass consumed with `is_training` false
still increments the epoch counter (from 0 to 1), so the epoch index
does not advance only when `is_training` is true, contrary to the
claim. -/
theorem c7_counterexample :
    (new_cyclic_iter 1 (fun _ => false) ([0] : List Nat) 1 0).2.1 ≠ 0 ∧
    new_cyclic_iter 1 (fun _ => false) ([0] : List Nat) 1 0 = ([0], 1, false) := by
  decide

theorem new_cyclic_iter_not_training {α : Type} (max_epochs : Nat) (src : List α) :
    ∀ (fuel i : Nat),
      new_cyclic_iter max_epochs (fun _ => false) src fuel i =
        ((List.replicate fuel src).flatten, i + fuel, false) := by
  intro fuel
  induction fuel with
  | zero => intro i; simp [new_cyclic_iter]
  | succ fuel ih =>
    intro i
    have hcond : ¬((fun _ : Nat => false) i = true ∧ max_epochs ≠ 0 ∧ max_epochs ≤ i) := by
      simp
    rw [new_cyclic_iter, if_neg hcond]
    simp only [ih]
    rw [List.replicate_succ, List.flatten_cons]
    have harith : i + 1 + fuel = i + (fuel + 1) := by omega
    rw [harith]

/-- C7 amended: the epoch index `i` increments after every completed
pass over the source regardless of `is_training`; `is_training` only
gates the max-epoch stop check, so the iterator never stops on its own
while `is_training` is false, and passes completed while `is_training`
is false still count toward the max-epoch stop once training resumes. -/
theorem c7_amended {α : Type} (max_epochs fuel i : Nat) (src : List α)
    (h1 : max_epochs ≠ 0) (h2 : max_epochs ≤ i) :
    new_cyclic_iter max_epochs (fun _ => false) src fuel i =
      ((List.replicate fuel src).flatten, i + fuel, false) ∧
    new_cyclic_iter max_epochs (fun _ => true) src (fuel + 1) i = ([], i, true) := by
  constructor
  · exact new_cyclic_iter_not_training max_epochs src fuel i
  · rw [new_cyclic_iter, if_pos ⟨rfl, h1, h2⟩]

/-- Witness for the amended C7 at `max_epochs = 1`, two passes already
counted while not training (`i = 1`). -/
theorem c7_witness :
    ((1 : Nat) ≠ 0 ∧ (1 : Nat) ≤ 1) ∧
    (new_cyclic_iter 1 (fun _ => false) ([0] : List Nat) 2 1 =
        ((List.replicate 2 ([0] : List Nat)).flatten, 1 + 2, false) ∧
      new_cyclic_iter 1 (fun _ => true) ([0] : List Nat) (2 + 1) 1 = ([], 1, true)) :=
  ⟨by decide, c7_amended 1 2 1 [0] (by decide) (by decide)⟩

/-- C2: `train_step` converts `StopIteration` raised by the wrapped step
into the canonical skip result `({}, True, True, True, 0, None, None)`,
propagates every other failure unchanged, passes normal results
through, and the training-context flag is false before the call (by
hypothesis) and false after the call on every exit path. -/
theorem c2_train_step_stop_iteration
    (origin_train_step : TrainFlags → Except PyErr StepResult × TrainFlags)
    (args : TrainFlags) (hbefore : args.is_training = false) :
    (train_step origin_train_step args).2.is_training = false ∧
    (∀ a2, origin_train_step { args with is_training := true } =
        (Except.error PyErr.stopIteration, a2) →
      (train_step origin_train_step args).1 = Except.ok skip_result) ∧
    (∀ e a2, e ≠ PyErr.stopIteration →
      origin_train_step { args with is_training := true } = (Except.error e, a2) →
      (train_step origin_train_step args).1 = Except.error e) ∧
    (∀ v a2, origin_train_step { args with is_training := true } = (Except.ok v, a2) →
      (train_step origin_train_step args).1 = Except.ok v) := by
  refine ⟨rfl, ?_, ?_, ?_⟩
  · intro a2 h
    simp [train_step, training_context, h]
  · intro e a2 he h
    cases e with
    | stopIteration => exact absurd rfl he
    | other msg => simp [train_step, training_context, h]
  · intro v a2 h
    simp [train_step, training_context, h]

/-- Witness for C2 with a step that raises `StopIteration`. -/
theorem c2_witness :
    ((⟨false⟩ : TrainFlags).is_training = false) ∧
    ((train_step (fun a => (Except.error PyErr.stopIteration, a)) ⟨false⟩).2.is_training = false ∧
      (train_step (fun a => (Except.error PyErr.stopIteration, a)) ⟨false⟩).1 =
        Except.ok skip_result) := by
  refine ⟨rfl, ?_, ?_⟩
  · exact (c2_train_step_stop_iteration (fun a => (Except.error PyErr.stopIteration, a))
      ⟨false⟩ rfl).1
  · exact (c2_train_step_stop_iteration (fun a => (Except.error PyErr.stopIteration, a))
      ⟨false⟩ rfl).2.1 _ rfl

/-- C4: when the training dataset is streaming (no length) with no
explicit `train_iters`, or the validation dataset is present and
streaming with the unsupplied (negative) `eval_iters` sentinel, startup
resolution fails with a `ValueError` (modelled as `Except.error`), so
`pretrain` — and with it every training step and every collective of
this core — never runs. -/
theorem c4_streaming_fails_fast (args : MArgs) (dp : Nat) (td : PyDataset)
    (vd : Option PyDataset)
    (h : (td.len = none ∧ args.train_iters = none) ∨
      (∃ v, vd = some v ∧ v.len = none ∧ args.eval_iters < 0)) :
    ∃ msg, get_iters args dp td vd = Except.error msg ∧
      ∀ (T : Type) (run_pretrain : MArgs → T),
        train run_pretrain args dp td vd = Except.error msg := by
  rcases h with ⟨hlen, hti⟩ | ⟨v, hvd, hvlen, hei⟩
  · refine ⟨"You are using a streaming training dataset. Please explicitly specify --train_iters.",
      ?_, ?_⟩
    · simp [get_iters, resolve_train_iters, hti, hlen]
    · intro T f
      simp [train, get_iters, resolve_train_iters, hti, hlen, Except.map]
  · subst hvd
    cases hti : args.train_iters with
    | none =>
      cases hlen2 : td.len with
      | none =>
        refine ⟨"You are using a streaming training dataset. Please explicitly specify --train_iters.",
          ?_, ?_⟩
        · simp [get_iters, resolve_train_iters, hti, hlen2]
        · intro T f
          simp [train, get_iters, resolve_train_iters, hti, hlen2, Except.map]
      | some nn =>
        refine ⟨"You are using a streaming validation dataset. Please explicitly specify --eval_iters.",
          ?_, ?_⟩
        · simp [get_iters, resolve_train_iters, resolve_eval_iters, hti, hlen2, hei, hvlen]
        · intro T f
          simp [train, get_iters, resolve_train_iters, resolve_eval_iters, hti, hlen2, hei,
            hvlen, Except.map]
    | some t =>
      refine ⟨"You are using a streaming validation dataset. Please explicitly specify --eval_iters.",
        ?_, ?_⟩
      · simp [get_iters, resolve_train_iters, resolve_eval_iters, hti, hei, hvlen]
      · intro T f
        simp [train, get_iters, resolve_train_iters, resolve_eval_iters, hti, hei, hvlen,
          Except.map]

/-- Witness for C4 with a streaming training dataset and no
`train_iters`. -/
theorem c4_witness :
    ((⟨none⟩ : PyDataset).len = none ∧ (⟨1, 2, 1, none, 10⟩ : MArgs).train_iters = none) ∧
    ∃ msg, get_iters (⟨1, 2, 1, none, 10⟩ : MArgs) 1 ⟨none⟩ none = Except.error msg := by
  refine ⟨⟨rfl, rfl⟩, ?_⟩
  obtain ⟨msg, hmsg, -⟩ := c4_streaming_fails_fast
    (⟨1, 2, 1, none, 10⟩ : MArgs) 1 ⟨none⟩ none (Or.inl ⟨rfl, rfl⟩)
  exact ⟨msg, hmsg⟩

/-- C9: when `train_iters` is unset and the training dataset has a known
length `L`, startup derives `train_iters = (L // step * step *
max_epochs // global_batch_size) + 1` with `step = micro_batch_size *
data_parallel_size`; in particular `max_epochs = 2`, `L = 10`,
`micro_batch_size = 1`, `data_parallel_size = 1`, `global_batch_size =
2` derives `train_iters = 11`. -/
theorem c9_derived_train_iters (args : MArgs) (dp L : Nat) (td : PyDataset)
    (h1 : args.train_iters = none) (h2 : td.len = some L) :
    get_iters args dp td none =
      Except.ok { args with
        train_iters := some (L / (args.micro_batch_size * dp) * (args.micro_batch_size * dp) *
          args.max_epochs / args.global_batch_size + 1) } ∧
    get_iters (⟨1, 2, 2, none, 10⟩ : MArgs) 1 ⟨some 10⟩ none =
      Except.ok (⟨1, 2, 2, some 11, 10⟩ : MArgs) := by
  constructor
  · simp [get_iters, resolve_train_iters, resolve_eval_iters, h1, h2]
  · rfl

/-- Witness for C9 at the concrete configuration of the claim. -/
theorem c9_witness :
    ((⟨1, 2, 2, none, 10⟩ : MArgs).train_iters = none ∧
      (⟨some 10⟩ : PyDataset).len = some 10) ∧
    get_iters (⟨1, 2, 2, none, 10⟩ : MArgs) 1 ⟨some 10⟩ none =
      Except.ok (⟨1, 2, 2, some 11, 10⟩ : MArgs) :=
  ⟨⟨rfl, rfl⟩, (c9_derived_train_iters (⟨1, 2, 2, none, 10⟩ : MArgs) 1 10 ⟨some 10⟩ rfl rfl).2⟩

/-- C10: whenever `eval_iters` is derived at startup (validation dataset
present with known length `L`, negative `eval_iters` sentinel), the
derived value is `max(L // step * step // global_batch_size, 1)`, so it
is at least 1 even when the validation set is smaller than one global
batch. -/
theorem c10_derived_eval_iters (args : MArgs) (dp L t : Nat) (td : PyDataset) (v : PyDataset)
    (ht : args.train_iters = some t) (hv : v.len = some L) (he : args.eval_iters < 0) :
    get_iters args dp td (some v) =
      Except.ok { args with
        eval_iters := ((max (L / (args.micro_batch_size * dp) * (args.micro_batch_size * dp) /
          args.global_batch_size) 1 : Nat) : Int) } ∧
    1 ≤ ((max (L / (args.micro_batch_size * dp) * (args.micro_batch_size * dp) /
      args.global_batch_size) 1 : Nat) : Int) := by
  constructor
  · simp [get_iters, resolve_train_iters, resolve_eval_iters, ht, hv, he]
  · exact_mod_cast le_max_right _ 1

/-- Witness for C10 with a validation set of 1 sample and global batch 4:
the derived `eval_iters` is 1. -/
theorem c10_witness :
    ((⟨1, 4, 1, some 5, -1⟩ : MArgs).train_iters = some 5 ∧
      (⟨some 1⟩ : PyDataset).len = some 1 ∧
      (⟨1, 4, 1, some 5, -1⟩ : MArgs).eval_iters < 0) ∧
    (get_iters (⟨1, 4, 1, some 5, -1⟩ : MArgs) 1 ⟨some 20⟩ (some ⟨some 1⟩) =
      Except.ok (⟨1, 4, 1, some 5, 1⟩ : MArgs) ∧
      (1 : Int) ≤ 1) := by
  refine ⟨⟨rfl, rfl, by decide⟩, ?_, le_refl 1⟩
  have h := (c10_derived_eval_iters (⟨1, 4, 1, some 5, -1⟩ : MArgs) 1 1 5 ⟨some 20⟩ ⟨some 1⟩
      rfl rfl (by decide)).1
  exact h

theorem append_ne_nil_iff {β : Type} (a b : List β) : a ++ b ≠ [] ↔ a ≠ [] ∨ b ≠ [] := by
  rcases a with _ | ⟨x, a⟩ <;> rcases b with _ | ⟨y, b⟩ <;> simp

theorem addPair_zero_left (p : ℚ × ℚ) : addPair (0, 0) p = p := by
  simp [addPair]

theorem addPair_zero_right (p : ℚ × ℚ) : addPair p (0, 0) = p := by
  simp [addPair]

theorem addPair_assoc (p q r : ℚ × ℚ) :
    addPair (addPair p q) r = addPair p (addPair q r) := by
  simp [addPair, add_assoc]

theorem sumPairs_nil : sumPairs [] = ((0 : ℚ), (0 : ℚ)) := rfl

theorem sumPairs_cons (p : ℚ × ℚ) (l : List (ℚ × ℚ)) :
    sumPairs (p :: l) = addPair p (sumPairs l) := by
  simp [sumPairs, addPair]

theorem sumPairs_append (a b : List (ℚ × ℚ)) :
    sumPairs (a ++ b) = addPair (sumPairs a) (sumPairs b) := by
  simp [sumPairs, addPair]

theorem lookup_accAdd_self (key : String) (v : LossVal) :
    ∀ a : Acc, List.lookup key (accAdd a key v) = some (addPair (get0 a key) (contribOf v)) := by
  intro a
  induction a with
  | nil => simp [accAdd, get0, List.lookup]
  | cons kv rest ih =>
    obtain ⟨k, p⟩ := kv
    by_cases hk : k = key
    · subst hk
      simp [accAdd, get0, List.lookup]
    · have hbk : (k == key) = false := by simp [hk]
      have hkb : (key == k) = false := by simp [Ne.symm hk]
      simp only [accAdd, hbk, Bool.false_eq_true, if_false, List.lookup, hkb, ih]
      have : get0 ((k, p) :: rest) key = get0 rest key := by
        simp [get0, List.lookup, hkb]
      rw [this]

theorem lookup_accAdd_ne (key k : String) (hk : k ≠ key) (v : LossVal) :
    ∀ a : Acc, List.lookup k (accAdd a key v) = List.lookup k a := by
  intro a
  induction a with
  | nil =>
    have hkb : (k == key) = false := by simp [hk]
    simp [accAdd, List.lookup, hkb]
  | cons kv rest ih =>
    obtain ⟨k2, p⟩ := kv
    by_cases h2 : k2 = key
    · subst h2
      have hkb : (k == k2) = false := by simp [hk]
      simp [accAdd, List.lookup, hkb]
    · have hb2 : (k2 == key) = false := by simp [h2]
      by_cases h3 : k = k2
      · subst h3
        simp [accAdd, hb2, List.lookup]
      · have hb3 : (k == k2) = false := by simp [h3]
        simp [accAdd, hb2, List.lookup, hb3, ih]

theorem get0_accAdd_self (a : Acc) (key : String) (v : LossVal) :
    get0 (accAdd a key v) key = addPair (get0 a key) (contribOf v) := by
  simp [get0, lookup_accAdd_self]

theorem get0_accAdd_ne (a : Acc) (key k : String) (hk : k ≠ key) (v : LossVal) :
    get0 (accAdd a key v) k = get0 a k := by
  simp [get0, lookup_accAdd_ne key k hk v a]

theorem dictContribs_nil (k : String) : dictContribs [] k = [] := rfl

theorem dictContribs_cons (e : String × LossVal) (d : List (String × LossVal)) (k : String) :
    dictContribs (e :: d) k =
      if e.1 = k then contribOf e.2 :: dictContribs d k else dictContribs d k := by
  by_cases h : e.1 = k <;> simp [dictContribs, h]

theorem get0_accLossDict (k : String) :
    ∀ (d : List (String × LossVal)) (a : Acc),
      get0 (accLossDict a d) k = addPair (get0 a k) (sumPairs (dictContribs d k)) := by
  intro d
  induction d with
  | nil =>
    intro a
    rw [show accLossDict a [] = a from rfl, dictContribs_nil, sumPairs_nil, addPair_zero_right]
  | cons e d ih =>
    intro a
    obtain ⟨key, v⟩ := e
    have hstep : accLossDict a ((key, v) :: d) = accLossDict (accAdd a key v) d := rfl
    rw [hstep, ih, dictContribs_cons]
    by_cases hk : key = k
    · subst hk
      rw [get0_accAdd_self]
      simp [sumPairs_cons, addPair_assoc]
    · rw [get0_accAdd_ne _ _ _ (Ne.symm hk)]
      simp [hk]

theorem lookup_isSome_accAdd (a : Acc) (key k : String) (v : LossVal) :
    (List.lookup k (accAdd a key v)).isSome = true ↔
      k = key ∨ (List.lookup k a).isSome = true := by
  by_cases hk : k = key
  · subst hk
    simp [lookup_accAdd_self]
  · simp [lookup_accAdd_ne key k hk v a, hk]

theorem lookup_isSome_accLossDict (k : String) :
    ∀ (d : List (String × LossVal)) (a : Acc),
      (List.lookup k (accLossDict a d)).isSome = true ↔
        (List.lookup k a).isSome = true ∨ dictContribs d k ≠ [] := by
  intro d
  induction d with
  | nil => intro a; simp [accLossDict, dictContribs]
  | cons e d ih =>
    intro a
    obtain ⟨key, v⟩ := e
    have hstep : accLossDict a ((key, v) :: d) = accLossDict (accAdd a key v) d := rfl
    rw [hstep, ih, dictContribs_cons, lookup_isSome_accAdd]
    by_cases hk : key = k
    · subst hk
      simp
    · simp [hk, Ne.symm hk]

theorem get0_accLossDicts (k : String) :
    ∀ (ds : List (List (String × LossVal))) (a : Acc),
      get0 (accLossDicts a ds) k = addPair (get0 a k) (sumPairs (dictsContribs ds k)) := by
  intro ds
  induction ds with
  | nil =>
    intro a
    rw [show accLossDicts a [] = a from rfl, show dictsContribs [] k = [] from rfl,
      sumPairs_nil, addPair_zero_right]
  | cons d ds ih =>
    intro a
    have hstep : accLossDicts a (d :: ds) = accLossDicts (accLossDict a d) ds := rfl
    have hdc : dictsContribs (d :: ds) k = dictContribs d k ++ dictsContribs ds k := by
      simp [dictsContribs]
    rw [hstep, ih, get0_accLossDict, hdc, sumPairs_append, addPair_assoc]

theorem lookup_isSome_accLossDicts (k : String) :
    ∀ (ds : List (List (String × LossVal))) (a : Acc),
      (List.lookup k (accLossDicts a ds)).isSome = true ↔
        (List.lookup k a).isSome = true ∨ dictsContribs ds k ≠ [] := by
  intro ds
  induction ds with
  | nil => intro a; simp [accLossDicts, dictsContribs]
  | cons d ds ih =>
    intro a
    have hstep : accLossDicts a (d :: ds) = accLossDicts (accLossDict a d) ds := rfl
    have hdc : dictsContribs (d :: ds) k = dictContribs d k ++ dictsContribs ds k := by
      simp [dictsContribs]
    rw [hstep, ih, lookup_isSome_accLossDict, hdc, append_ne_nil_iff]
    tauto

theorem get0_accRange {n : Nat} {α : Type} (env : EvalEnv n α) (w : Fin n)
    (hpls : env.is_pipeline_last_stage w = true) (k : String) :
    ∀ (cnt start : Nat) (total : Acc),
      get0 (accRange env w total start cnt) k =
        addPair (get0 total k) (sumPairs (iterContribs env w start cnt k)) := by
  intro cnt
  induction cnt with
  | zero =>
    intro start total
    rw [show accRange env w total start 0 = total from rfl,
      show iterContribs env w start 0 k = [] from rfl, sumPairs_nil, addPair_zero_right]
  | succ cnt ih =>
    intro start total
    have hstep : accRange env w total start (cnt + 1) =
        accRange env w (accLossDicts total (env.loss_dicts (start + 1) w)) (start + 1) cnt := by
      rw [show accRange env w total start (cnt + 1) =
        accRange env w
          (if env.is_pipeline_last_stage w then accLossDicts total (env.loss_dicts (start + 1) w)
           else total) (start + 1) cnt from rfl, hpls]
      simp
    have hic : iterContribs env w start (cnt + 1) k =
        dictsContribs (env.loss_dicts (start + 1) w) k ++ iterContribs env w (start + 1) cnt k :=
      rfl
    rw [hstep, ih, get0_accLossDicts, hic, sumPairs_append, addPair_assoc]

theorem lookup_isSome_accRange {n : Nat} {α : Type} (env : EvalEnv n α) (w : Fin n)
    (hpls : env.is_pipeline_last_stage w = true) (k : String) :
    ∀ (cnt start : Nat) (total : Acc),
      (List.lookup k (accRange env w total start cnt)).isSome = true ↔
        (List.lookup k total).isSome = true ∨ iterContribs env w start cnt k ≠ [] := by
  intro cnt
  induction cnt with
  | zero =>
    intro start total
    rw [show accRange env w total start 0 = total from rfl,
      show iterContribs env w start 0 k = [] from rfl]
    simp
  | succ cnt ih =>
    intro start total
    have hstep : accRange env w total start (cnt + 1) =
        accRange env w (accLossDicts total (env.loss_dicts (start + 1) w)) (start + 1) cnt := by
      rw [show accRange env w total start (cnt + 1) =
        accRange env w
          (if env.is_pipeline_last_stage w then accLossDicts total (env.loss_dicts (start + 1) w)
           else total) (start + 1) cnt from rfl, hpls]
      simp
    have hic : iterContribs env w start (cnt + 1) k =
        dictsContribs (env.loss_dicts (start + 1) w) k ++ iterContribs env w (start + 1) cnt k :=
      rfl
    rw [hstep, ih, lookup_isSome_accLossDicts, hic, append_ne_nil_iff]
    tauto

theorem lookup_finalizeAcc (k : String) :
    ∀ a : Acc, List.lookup k (finalizeAcc a) = (List.lookup k a).map (fun p => p.1 / p.2) := by
  intro a
  induction a with
  | nil => simp [finalizeAcc]
  | cons kv rest ih =>
    obtain ⟨key, p⟩ := kv
    by_cases hk : k = key
    · subst hk
      simp [finalizeAcc, List.lookup]
    · have hkb : (k == key) = false := by simp [hk]
      simp [finalizeAcc, List.lookup, hkb]
      exact ih

theorem sum_of_ones : ∀ l : List ℚ, (∀ x ∈ l, x = 1) → l.sum = (l.length : ℚ) := by
  intro l
  induction l with
  | nil => intro _; simp
  | cons a l ih =>
    intro h
    have ha : a = 1 := h a (by simp)
    have hl := ih (fun x hx => h x (by simp [hx]))
    simp [ha, hl]
    ring

theorem evalDone_iff {n : Nat} {α : Type} (args : EvalArgs) (env : EvalEnv n α) (j : Nat) :
    evalDone args env j = true ↔
      ∃ w2 : Fin n, (args.exit_duration_in_mins : ℚ) < env.train_time j w2 := by
  unfold evalDone allReduceMax
  rw [bne_iff_ne]
  have hiff : (Finset.univ : Finset (Fin n)).sup
      (fun w2 => if (args.exit_duration_in_mins : ℚ) < env.train_time j w2 then 1 else 0) = 0 ↔
      ∀ w2 : Fin n, ¬ (args.exit_duration_in_mins : ℚ) < env.train_time j w2 := by
    rw [← Nat.le_zero, Finset.sup_le_iff]
    constructor
    · intro h w2
      have hw := h w2 (Finset.mem_univ w2)
      by_contra hc
      simp [hc] at hw
    · intro h w2 _
      simp [h w2]
  constructor
  · intro h
    by_contra hno
    push_neg at hno
    exact h (hiff.mpr fun w2 => not_lt.mpr (hno w2))
  · rintro ⟨w2, hw⟩ hz
    exact (hiff.mp hz w2) hw

theorem firstDoneOff_spec {n : Nat} {α : Type} (args : EvalArgs) (env : EvalEnv n α) :
    ∀ (r iteration t : Nat), firstDoneOff args env iteration r = some t →
      1 ≤ t ∧ t ≤ r ∧
      (args.exit_duration_in_mins ≠ 0 ∧ evalDone args env (iteration + t) = true) ∧
      ∀ t2, 1 ≤ t2 → t2 < t →
        ¬(args.exit_duration_in_mins ≠ 0 ∧ evalDone args env (iteration + t2) = true) := by
  intro r
  induction r with
  | zero => intro it t h; simp [firstDoneOff] at h
  | succ r ih =>
    intro it t h
    rw [firstDoneOff] at h
    by_cases hc : args.exit_duration_in_mins ≠ 0 ∧ evalDone args env (it + 1) = true
    · rw [if_pos hc] at h
      have ht : t = 1 := by
        injection h with h2
        omega
      subst ht
      exact ⟨le_refl 1, by omega, hc, fun t2 h1 h2 => by omega⟩
    · rw [if_neg hc] at h
      cases hfd : firstDoneOff args env (it + 1) r with
      | none => rw [hfd] at h; simp at h
      | some u =>
        rw [hfd] at h
        simp at h
        subst h
        obtain ⟨h1, h2, h3, h4⟩ := ih (it + 1) u hfd
        refine ⟨by omega, by omega, ?_, ?_⟩
        · have e : it + 1 + u = it + (u + 1) := by omega
          rwa [e] at h3
        · intro t2 ht1 ht2
          rcases Nat.eq_or_lt_of_le ht1 with he | hlt2
          · rw [← he]
            intro hcc
            exact hc hcc
          · have e : it + 1 + (t2 - 1) = it + t2 := by omega
            have h5 := h4 (t2 - 1) (by omega) (by omega)
            rwa [e] at h5

theorem firstDoneOff_eq_some {n : Nat} {α : Type} (args : EvalArgs) (env : EvalEnv n α) :
    ∀ (r iteration t : Nat), 1 ≤ t → t ≤ r →
      (args.exit_duration_in_mins ≠ 0 ∧ evalDone args env (iteration + t) = true) →
      (∀ t2, 1 ≤ t2 → t2 < t →
        ¬(args.exit_duration_in_mins ≠ 0 ∧ evalDone args env (iteration + t2) = true)) →
      firstDoneOff args env iteration r = some t := by
  intro r
  induction r with
  | zero => intro it t h1 h2 _ _; omega
  | succ r ih =>
    intro it t h1 h2 hcond hmin
    rw [firstDoneOff]
    by_cases hc : args.exit_duration_in_mins ≠ 0 ∧ evalDone args env (it + 1) = true
    · rw [if_pos hc]
      have ht : t = 1 := by
        by_contra hne
        exact hmin 1 (le_refl 1) (by omega) hc
      rw [ht]
    · rw [if_neg hc]
      have ht2 : 2 ≤ t := by
        rcases Nat.eq_or_lt_of_le h1 with he | hlt
        · exfalso
          apply hc
          have e : it + 1 = it + t := by omega
          rwa [e]
        · omega
      have hrec := ih (it + 1) (t - 1) (by omega) (by omega)
        (by
          have e : it + 1 + (t - 1) = it + t := by omega
          rwa [e])
        (by
          intro t2 hta htb
          have e : it + 1 + t2 = it + (t2 + 1) := by omega
          rw [e]
          exact hmin (t2 + 1) (by omega) (by omega))
      rw [hrec]
      have e2 : t - 1 + 1 = t := by omega
      simp [e2]

theorem evalLoop_normal {n : Nat} {α : Type} (args : EvalArgs) (env : EvalEnv n α)
    (w : Fin n) (rm : RerunMode) :
    ∀ (r iteration : Nat) (total : Acc) (st : EvalState),
      firstDoneOff args env iteration r = none →
      evalLoop args env w rm r iteration total st =
        { metrics := some (finalizeAcc (accRange env w total iteration r))
          collected_non_loss_data := collectNonLossData env
          aborted := false
          state := { modelModes := st.modelModes.map (fun _ => ModuleMode.train)
                     rerunMode := rm
                     consumed_valid_samples :=
                       st.consumed_valid_samples + r * args.global_batch_size }
          iteration := iteration + r
          total_loss_dict_at_return := accRange env w total iteration r } := by
  intro r
  induction r with
  | zero =>
    intro it total st _
    simp [evalLoop, accRange]
  | succ r ih =>
    intro it total st h
    rw [firstDoneOff] at h
    by_cases hc : args.exit_duration_in_mins ≠ 0 ∧ evalDone args env (it + 1) = true
    · rw [if_pos hc] at h
      exact absurd h (by simp)
    · rw [if_neg hc] at h
      have h2 : firstDoneOff args env (it + 1) r = none := by
        cases hfd : firstDoneOff args env (it + 1) r with
        | none => rfl
        | some u => rw [hfd] at h; simp at h
      simp only [evalLoop]
      rw [if_neg hc]
      rw [ih (it + 1) _ _ h2]
      simp only [EvalReturn.mk.injEq, EvalState.mk.injEq]
      and_intros <;> first | trivial | ring | omega

theorem evalLoop_abort {n : Nat} {α : Type} (args : EvalArgs) (env : EvalEnv n α)
    (w : Fin n) (rm : RerunMode) :
    ∀ (r iteration t : Nat) (total : Acc) (st : EvalState),
      firstDoneOff args env iteration r = some t →
      evalLoop args env w rm r iteration total st =
        { metrics := none
          collected_non_loss_data := none
          aborted := true
          state := { modelModes := st.modelModes
                     rerunMode := rm
                     consumed_valid_samples :=
                       st.consumed_valid_samples + t * args.global_batch_size }
          iteration := iteration + t
          total_loss_dict_at_return := accRange env w total iteration t } := by
  intro r
  induction r with
  | zero => intro it t total st h; simp [firstDoneOff] at h
  | succ r ih =>
    intro it t total st h
    rw [firstDoneOff] at h
    by_cases hc : args.exit_duration_in_mins ≠ 0 ∧ evalDone args env (it + 1) = true
    · rw [if_pos hc] at h
      have ht : t = 1 := by
        injection h with h2
        omega
      subst ht
      simp only [evalLoop]
      rw [if_pos hc]
      simp only [EvalReturn.mk.injEq, EvalState.mk.injEq]
      and_intros <;> first | trivial | ring | omega
    · rw [if_neg hc] at h
      cases hfd : firstDoneOff args env (it + 1) r with
      | none => rw [hfd] at h; simp at h
      | some u =>
        rw [hfd] at h
        simp at h
        subst h
        simp only [evalLoop]
        rw [if_neg hc]
        rw [ih (it + 1) u _ _ hfd]
        simp only [EvalReturn.mk.injEq, EvalState.mk.injEq]
        and_intros <;> first | trivial | ring | omega

/-- C1: with a positive exit-duration budget, if the locally computed
elapsed-time-exceeded boolean of at least one worker is true at a
reachable iteration `j` (no such boolean having been true earlier), the MAX
all-reduce makes every worker observe the reduced value true and every
worker returns `(metrics = None, auxiliary = None, aborted = True)` in
iteration `j`; if no local boolean of any worker is true at iteration `j`,
no worker takes the early exit at iteration `j`. -/
theorem c1_consensus_early_exit {n : Nat} {α : Type} (args : EvalArgs) (env : EvalEnv n α)
    (j : Nat) (hbudget : args.exit_duration_in_mins ≠ 0) (hj1 : 1 ≤ j)
    (hj2 : j ≤ args.eval_iters) :
    ((∀ t, 1 ≤ t → t < j → ∀ w2 : Fin n,
        ¬ (args.exit_duration_in_mins : ℚ) < env.train_time t w2) →
      (∃ w2 : Fin n, (args.exit_duration_in_mins : ℚ) < env.train_time j w2) →
      ∀ (w : Fin n) (st : EvalState),
        (evaluate args env w st).metrics = none ∧
        (evaluate args env w st).collected_non_loss_data = none ∧
        (evaluate args env w st).aborted = true ∧
        (evaluate args env w st).iteration = j) ∧
    ((∀ w2 : Fin n, ¬ (args.exit_duration_in_mins : ℚ) < env.train_time j w2) →
      ∀ (w : Fin n) (st : EvalState),
        ¬((evaluate args env w st).aborted = true ∧ (evaluate args env w st).iteration = j)) := by
  constructor
  · intro hbefore hex w st
    have hfd : firstDoneOff args env 0 args.eval_iters = some j := by
      apply firstDoneOff_eq_some args env args.eval_iters 0 j hj1 hj2
      · refine ⟨hbudget, ?_⟩
        rw [Nat.zero_add]
        exact (evalDone_iff args env j).mpr hex
      · intro t2 h1 h2
        rintro ⟨-, hd⟩
        rw [Nat.zero_add] at hd
        obtain ⟨w2, hw2⟩ := (evalDone_iff args env t2).mp hd
        exact hbefore t2 h1 h2 w2 hw2
    have heq := evalLoop_abort args env w st.rerunMode args.eval_iters 0 j []
      { st with
        modelModes := st.modelModes.map (fun _ => ModuleMode.eval)
        rerunMode := RerunMode.DISABLED } hfd
    unfold evaluate
    rw [heq]
    refine ⟨rfl, rfl, rfl, ?_⟩
    show 0 + j = j
    omega
  · intro hno w st
    rintro ⟨hab, hit⟩
    cases hfd : firstDoneOff args env 0 args.eval_iters with
    | none =>
      have heq := evalLoop_normal args env w st.rerunMode args.eval_iters 0 []
        { st with
          modelModes := st.modelModes.map (fun _ => ModuleMode.eval)
          rerunMode := RerunMode.DISABLED } hfd
      unfold evaluate at hab
      rw [heq] at hab
      simp at hab
    | some t =>
      have heq := evalLoop_abort args env w st.rerunMode args.eval_iters 0 t []
        { st with
          modelModes := st.modelModes.map (fun _ => ModuleMode.eval)
          rerunMode := RerunMode.DISABLED } hfd
      unfold evaluate at hit
      rw [heq] at hit
      have htj : 0 + t = j := hit
      obtain ⟨-, -, ⟨-, hd⟩, -⟩ := firstDoneOff_spec args env args.eval_iters 0 t hfd
      rw [Nat.zero_add] at hd
      obtain ⟨w2, hw2⟩ := (evalDone_iff args env t).mp hd
      have htj2 : t = j := by omega
      subst htj2
      exact hno w2 hw2

/-- Witness for C1 on the two-worker fleet: nobody exceeds the budget at
iteration 1; only worker 0 exceeds it at iteration 2; both workers
abort at iteration 2 with no metrics and no auxiliary data. -/
theorem c1_witness :
    ((1 : Nat) ≠ 0 ∧ (1 : Nat) ≤ 2 ∧ (2 : Nat) ≤ 2) ∧
    ((evaluate (⟨2, 1, 1, 1, 1⟩ : EvalArgs) sampleEnvFleet 0 sampleState).metrics = none ∧
      (evaluate (⟨2, 1, 1, 1, 1⟩ : EvalArgs) sampleEnvFleet 0
        sampleState).collected_non_loss_data = none ∧
      (evaluate (⟨2, 1, 1, 1, 1⟩ : EvalArgs) sampleEnvFleet 0 sampleState).aborted = true ∧
      (evaluate (⟨2, 1, 1, 1, 1⟩ : EvalArgs) sampleEnvFleet 0 sampleState).iteration = 2) ∧
    ((evaluate (⟨2, 1, 1, 1, 1⟩ : EvalArgs) sampleEnvFleet 1 sampleState).aborted = true ∧
      (evaluate (⟨2, 1, 1, 1, 1⟩ : EvalArgs) sampleEnvFleet 1 sampleState).iteration = 2) := by
  have h := (c1_consensus_early_exit (⟨2, 1, 1, 1, 1⟩ : EvalArgs) sampleEnvFleet 2
      (by decide) (by decide) (by decide)).1
    (by intro t h1 h2; interval_cases t; decide)
    ⟨0, by decide⟩
  refine ⟨⟨by decide, by decide, by decide⟩, h 0 sampleState, ?_⟩
  exact ⟨(h 1 sampleState).2.2.1, (h 1 sampleState).2.2.2⟩

/-- C5 counterexample: on the time-limit early-exit path the returned
state still has the model module in eval mode, so the model modules are
not restored to training mode on that path, contrary to the claim. -/
theorem c5_counterexample :
    (evaluate (⟨2, 1, 1, 1, 1⟩ : EvalArgs) sampleEnvAbort 0 sampleState).aborted = true ∧
    (evaluate (⟨2, 1, 1, 1, 1⟩ : EvalArgs) sampleEnvAbort 0 sampleState).state.modelModes ≠
      [ModuleMode.train] ∧
    (evaluate (⟨2, 1, 1, 1, 1⟩ : EvalArgs) sampleEnvAbort 0 sampleState).state.modelModes =
      [ModuleMode.eval] := by
  decide

/-- C5 amended: `evaluate` switches every model module to eval mode at
entry and the saved rerun mode is restored on both return paths, but
the model modules are restored to train mode only on the
normal-completion path: on the time-limit early-exit path they remain
in eval mode. -/
theorem c5_mode_and_rerun_restoration {n : Nat} {α : Type} (args : EvalArgs)
    (env : EvalEnv n α) (w : Fin n) (st : EvalState) :
    ((evaluate args env w st).aborted = false →
      (evaluate args env w st).state.modelModes =
        st.modelModes.map (fun _ => ModuleMode.train) ∧
      (evaluate args env w st).state.rerunMode = st.rerunMode) ∧
    ((evaluate args env w st).aborted = true →
      (evaluate args env w st).state.modelModes =
        st.modelModes.map (fun _ => ModuleMode.eval) ∧
      (evaluate args env w st).state.rerunMode = st.rerunMode) := by
  cases hfd : firstDoneOff args env 0 args.eval_iters with
  | none =>
    have heq := evalLoop_normal args env w st.rerunMode args.eval_iters 0 []
      { st with
        modelModes := st.modelModes.map (fun _ => ModuleMode.eval)
        rerunMode := RerunMode.DISABLED } hfd
    constructor
    · intro _
      unfold evaluate
      rw [heq]
      constructor
      · simp [List.map_map, Function.comp]
      · rfl
    · intro hab
      unfold evaluate at hab
      rw [heq] at hab
      simp at hab
  | some t =>
    have heq := evalLoop_abort args env w st.rerunMode args.eval_iters 0 t []
      { st with
        modelModes := st.modelModes.map (fun _ => ModuleMode.eval)
        rerunMode := RerunMode.DISABLED } hfd
    constructor
    · intro hab
      unfold evaluate at hab
      rw [heq] at hab
      simp at hab
    · intro _
      unfold evaluate
      rw [heq]
      exact ⟨rfl, rfl⟩

/-- Witness for the amended C5: on a normal run the module mode returns
to train and the rerun mode to its saved value; on an aborted run the
rerun mode is restored while the module stays in eval mode. -/
theorem c5_witness :
    ((evaluate (⟨2, 1, 1, 1, 0⟩ : EvalArgs) sampleEnvAbort 0 sampleState).aborted = false ∧
      (evaluate (⟨2, 1, 1, 1, 0⟩ : EvalArgs) sampleEnvAbort 0 sampleState).state.modelModes =
        [ModuleMode.train] ∧
      (evaluate (⟨2, 1, 1, 1, 0⟩ : EvalArgs) sampleEnvAbort 0 sampleState).state.rerunMode =
        RerunMode.VALIDATE_RESULTS) ∧
    ((evaluate (⟨2, 1, 1, 1, 1⟩ : EvalArgs) sampleEnvAbort 0 sampleState).aborted = true ∧
      (evaluate (⟨2, 1, 1, 1, 1⟩ : EvalArgs) sampleEnvAbort 0 sampleState).state.modelModes =
        [ModuleMode.eval] ∧
      (evaluate (⟨2, 1, 1, 1, 1⟩ : EvalArgs) sampleEnvAbort 0 sampleState).state.rerunMode =
        RerunMode.VALIDATE_RESULTS) := by
  constructor
  · have h := (c5_mode_and_rerun_restoration (⟨2, 1, 1, 1, 0⟩ : EvalArgs) sampleEnvAbort 0
      sampleState).1 (by decide)
    exact ⟨by decide, h.1, h.2⟩
  · have h := (c5_mode_and_rerun_restoration (⟨2, 1, 1, 1, 1⟩ : EvalArgs) sampleEnvAbort 0
      sampleState).2 (by decide)
    exact ⟨by decide, h.1, h.2⟩

/-- C6 counterexample: the time-limit exit at iteration 1 happens after
the metrics of that iteration were accumulated: at the early `return` the
local `total_loss_dict` already contains the contribution `(5, 1)` of
the metric reported in the triggering iteration, contrary to the claim
that the exit happens before accumulation. -/
theorem c6_counterexample :
    (evaluate (⟨2, 1, 1, 1, 1⟩ : EvalArgs) sampleEnvLoss 0 sampleState).aborted = true ∧
    (evaluate (⟨2, 1, 1, 1, 1⟩ : EvalArgs) sampleEnvLoss 0 sampleState).iteration = 1 ∧
    (evaluate (⟨2, 1, 1, 1, 1⟩ : EvalArgs) sampleEnvLoss 0
      sampleState).total_loss_dict_at_return ≠ [] ∧
    (evaluate (⟨2, 1, 1, 1, 1⟩ : EvalArgs) sampleEnvLoss 0
      sampleState).total_loss_dict_at_return = [("loss", ((5 : ℚ), (1 : ℚ)))] := by
  have hfd : firstDoneOff (⟨2, 1, 1, 1, 1⟩ : EvalArgs) sampleEnvLoss 0 2 = some 1 := by
    rw [firstDoneOff, if_pos ⟨by decide, by decide⟩]
  have heq := evalLoop_abort (⟨2, 1, 1, 1, 1⟩ : EvalArgs) sampleEnvLoss 0
    sampleState.rerunMode 2 0 1 []
    { sampleState with
      modelModes := sampleState.modelModes.map (fun _ => ModuleMode.eval)
      rerunMode := RerunMode.DISABLED } hfd
  unfold evaluate
  rw [heq]
  refine ⟨rfl, rfl, by decide, ?_⟩
  show accRange sampleEnvLoss 0 [] 0 1 = [("loss", ((5 : ℚ), (1 : ℚ)))]
  norm_num [accRange, sampleEnvLoss, accLossDicts, accLossDict, accAdd, addPair, contribOf]

/-- C6 amended: when the time-limit consensus trips at iteration `j`,
the early exit happens after the accumulation of the metrics of
iteration `j`: the local accumulator at the `return` equals the accumulation
over iterations 1 through `j` inclusive — but the returned result
discards it and reports `metrics = None`. -/
theorem c6_exit_after_accumulation {n : Nat} {α : Type} (args : EvalArgs) (env : EvalEnv n α)
    (j : Nat) (hbudget : args.exit_duration_in_mins ≠ 0) (hj1 : 1 ≤ j)
    (hj2 : j ≤ args.eval_iters)
    (hbefore : ∀ t, 1 ≤ t → t < j → evalDone args env t = false)
    (hat : evalDone args env j = true) :
    ∀ (w : Fin n) (st : EvalState),
      (evaluate args env w st).aborted = true ∧
      (evaluate args env w st).metrics = none ∧
      (evaluate args env w st).iteration = j ∧
      (evaluate args env w st).total_loss_dict_at_return = accRange env w [] 0 j := by
  intro w st
  have hfd : firstDoneOff args env 0 args.eval_iters = some j := by
    apply firstDoneOff_eq_some args env args.eval_iters 0 j hj1 hj2
    · refine ⟨hbudget, ?_⟩
      rw [Nat.zero_add]
      exact hat
    · intro t2 h1 h2
      rintro ⟨-, hd⟩
      rw [Nat.zero_add] at hd
      rw [hbefore t2 h1 h2] at hd
      exact absurd hd (by simp)
  have heq := evalLoop_abort args env w st.rerunMode args.eval_iters 0 j []
    { st with
      modelModes := st.modelModes.map (fun _ => ModuleMode.eval)
      rerunMode := RerunMode.DISABLED } hfd
  unfold evaluate
  rw [heq]
  refine ⟨rfl, rfl, ?_, rfl⟩
  show 0 + j = j
  omega

/-- Witness for the amended C6: with the metric `loss = 5` reported and
the budget exceeded at iteration 1, the abort at iteration 1 returns no
metrics while the accumulator at the return already holds the
contribution of iteration 1. -/
theorem c6_witness :
    ((1 : Nat) ≠ 0 ∧ (1 : Nat) ≤ 2 ∧
      evalDone (⟨2, 1, 1, 1, 1⟩ : EvalArgs) sampleEnvLoss 1 = true) ∧
    ((evaluate (⟨2, 1, 1, 1, 1⟩ : EvalArgs) sampleEnvLoss 0 sampleState).aborted = true ∧
      (evaluate (⟨2, 1, 1, 1, 1⟩ : EvalArgs) sampleEnvLoss 0 sampleState).metrics = none ∧
      (evaluate (⟨2, 1, 1, 1, 1⟩ : EvalArgs) sampleEnvLoss 0 sampleState).iteration = 1 ∧
      (evaluate (⟨2, 1, 1, 1, 1⟩ : EvalArgs) sampleEnvLoss 0
        sampleState).total_loss_dict_at_return = accRange sampleEnvLoss 0 [] 0 1) := by
  refine ⟨⟨by decide, by decide, by decide⟩, ?_⟩
  exact c6_exit_after_accumulation (⟨2, 1, 1, 1, 1⟩ : EvalArgs) sampleEnvLoss 1
    (by decide) (by decide) (by decide) (fun t h1 h2 => by omega) (by decide) 0 sampleState

/-- C8: on the normal-completion path on the pipeline-final stage, the
finalized value of every reported metric key equals the quotient of the
summed numerators by the summed denominators of its contributions,
where a paired report `(v, w)` contributes `(v, w)` and a scalar report
`v` contributes `(v, 1)`; in particular a key reported only as scalars
`k` times finalizes to the sum of the values divided by `k`. -/
theorem c8_metric_accumulation {n : Nat} {α : Type} (args : EvalArgs) (env : EvalEnv n α)
    (w : Fin n) (st : EvalState) (hpls : env.is_pipeline_last_stage w = true)
    (hnormal : (evaluate args env w st).aborted = false) :
    (evaluate args env w st).metrics =
      some (finalizeAcc (accRange env w [] 0 args.eval_iters)) ∧
    (∀ k : String, iterContribs env w 0 args.eval_iters k ≠ [] →
      List.lookup k (finalizeAcc (accRange env w [] 0 args.eval_iters)) =
        some (((iterContribs env w 0 args.eval_iters k).map Prod.fst).sum /
          ((iterContribs env w 0 args.eval_iters k).map Prod.snd).sum)) ∧
    (∀ k : String, iterContribs env w 0 args.eval_iters k ≠ [] →
      (∀ p ∈ iterContribs env w 0 args.eval_iters k, p.2 = 1) →
      List.lookup k (finalizeAcc (accRange env w [] 0 args.eval_iters)) =
        some (((iterContribs env w 0 args.eval_iters k).map Prod.fst).sum /
          ((iterContribs env w 0 args.eval_iters k).length : ℚ))) := by
  have hfd : firstDoneOff args env 0 args.eval_iters = none := by
    cases hfd2 : firstDoneOff args env 0 args.eval_iters with
    | none => rfl
    | some t =>
      exfalso
      have heq := evalLoop_abort args env w st.rerunMode args.eval_iters 0 t []
        { st with
          modelModes := st.modelModes.map (fun _ => ModuleMode.eval)
          rerunMode := RerunMode.DISABLED } hfd2
      unfold evaluate at hnormal
      rw [heq] at hnormal
      simp at hnormal
  have hkey : ∀ k : String, iterContribs env w 0 args.eval_iters k ≠ [] →
      List.lookup k (finalizeAcc (accRange env w [] 0 args.eval_iters)) =
        some (((iterContribs env w 0 args.eval_iters k).map Prod.fst).sum /
          ((iterContribs env w 0 args.eval_iters k).map Prod.snd).sum) := by
    intro k hne
    have hsome : (List.lookup k (accRange env w [] 0 args.eval_iters)).isSome = true :=
      (lookup_isSome_accRange env w hpls k args.eval_iters 0 []).mpr (Or.inr hne)
    obtain ⟨p, hp⟩ := Option.isSome_iff_exists.mp hsome
    have hg2 := get0_accRange env w hpls k args.eval_iters 0 []
    rw [show get0 ([] : Acc) k = ((0 : ℚ), (0 : ℚ)) from rfl, addPair_zero_left] at hg2
    have hp2 : p = sumPairs (iterContribs env w 0 args.eval_iters k) := by
      rw [← hg2]
      simp [get0, hp]
    rw [lookup_finalizeAcc, hp]
    simp only [Option.map]
    rw [hp2]
    rfl
  refine ⟨?_, hkey, ?_⟩
  · have heq := evalLoop_normal args env w st.rerunMode args.eval_iters 0 []
      { st with
        modelModes := st.modelModes.map (fun _ => ModuleMode.eval)
        rerunMode := RerunMode.DISABLED } hfd
    unfold evaluate
    rw [heq]
  · intro k hne hones
    have h1 : ∀ x ∈ (iterContribs env w 0 args.eval_iters k).map Prod.snd, x = (1 : ℚ) := by
      intro x hx
      obtain ⟨p, hp, hpx⟩ := List.mem_map.mp hx
      rw [← hpx]
      exact hones p hp
    have hsum : ((iterContribs env w 0 args.eval_iters k).map Prod.snd).sum =
        ((iterContribs env w 0 args.eval_iters k).length : ℚ) := by
      rw [sum_of_ones _ h1, List.length_map]
    rw [hkey k hne, hsum]

/-- Witness for C8: over one evaluation iteration reporting
`lm = (3, 2)` and `acc = 1`, the finalized `lm` metric is the
contribution quotient, concretely `3 / 2`. -/
theorem c8_witness :
    (sampleEnvMetrics.is_pipeline_last_stage 0 = true ∧
      (evaluate (⟨1, 1, 1, 1, 0⟩ : EvalArgs) sampleEnvMetrics 0 sampleState).aborted = false ∧
      iterContribs sampleEnvMetrics 0 0 1 "lm" ≠ []) ∧
    (List.lookup "lm" (finalizeAcc (accRange sampleEnvMetrics 0 [] 0 1)) =
      some (((iterContribs sampleEnvMetrics 0 0 1 "lm").map Prod.fst).sum /
        ((iterContribs sampleEnvMetrics 0 0 1 "lm").map Prod.snd).sum) ∧
      List.lookup "lm" (finalizeAcc (accRange sampleEnvMetrics 0 [] 0 1)) =
        some ((3 : ℚ) / 2)) := by
  refine ⟨⟨rfl, by decide, by decide⟩, ?_, ?_⟩
  · exact (c8_metric_accumulation (⟨1, 1, 1, 1, 0⟩ : EvalArgs) sampleEnvMetrics 0 sampleState
      rfl (by decide)).2.1 "lm" (by decide)
  · norm_num [accRange, sampleEnvMetrics, accLossDicts, accLossDict, accAdd, addPair,
      contribOf, finalizeAcc, List.lookup]

end MegatronTrainer
